import Mathlib

/-!
Verification of the visualization-step contract and playback state machine of
the tutorAI repository, as a shallow embedding in Lean 4.

The embedded code (all TypeScript):
  * `JSON.parse` (the ECMAScript built-in), modelled by `jsonParse` below over
    an explicit JSON value type `Json`;
  * the server actions `handleGraphSimulation`, `handleTreeSimulation`,
    `handleAlgorithmSimulation` (src/app/simulations/graph/actions.ts,
    tree/actions.ts, and the array actions file);
  * the page-level form schemas and submit handlers
    (src/app/simulations/graph/page.tsx, tree/page.tsx, array pages);
  * the step viewers (`SimulationDisplay`, `GraphVisualizer`, `TreeVisualizer`)
    and their previous/next/slider navigation.

JavaScript numbers are modelled by `JNum`: finite values are exact rationals
(IEEE rounding to the nearest double is not modelled; no statement below
depends on it), and values whose magnitude reaches the IEEE double overflow
threshold become positive or negative infinity, exactly as `JSON.parse` and
`Number` behave on overflowing literals.  `NaN` is represented where needed by
`Option JNum` with `none` playing NaN (neither `JSON.parse` nor any JSON value
can contain NaN, so `JNum` itself has no NaN constructor).
-/

set_option maxRecDepth 16000

namespace TutorAI

/-- Characters that are awkward to write literally: double quote. -/
def qMark : Char := Char.ofNat 34

/-- Backslash character. -/
def bslash : Char := Char.ofNat 92

/-- Left curly bracket character. -/
def lcub : Char := Char.ofNat 123

/-- Right curly bracket character. -/
def rcub : Char := Char.ofNat 125

/-- A JavaScript number that can result from parsing a JSON numeric literal:
an exact rational, or an infinity produced by overflow. -/
inductive JNum where
  | finite (q : ℚ)
  | posInf
  | negInf
deriving DecidableEq, Repr

/-- The JSON value domain produced by `JSON.parse`. -/
inductive Json where
  | null
  | bool (b : Bool)
  | num (n : JNum)
  | str (s : String)
  | arr (elems : List Json)
  | obj (members : List (String × Json))
deriving Repr

/-- Smallest positive magnitude that rounds to infinity when converted to an
IEEE 754 double under round-to-nearest-even: 2^1024 - 2^970. -/
def dblOverflowNum : ℕ := 2 ^ 1024 - 2 ^ 970

/-- Whether the decimal value m * 10^e (m a natural mantissa, e a decimal
exponent) has magnitude at or beyond the double overflow threshold. -/
def decMagOverflows (m : ℕ) (e : ℤ) : Bool :=
  if 0 ≤ e then dblOverflowNum ≤ m * 10 ^ e.toNat
  else dblOverflowNum * 10 ^ (-e).toNat ≤ m

/-- The exact rational value sign * m * 10^e. -/
def decRat (neg : Bool) (m : ℕ) (e : ℤ) : ℚ :=
  let mag : ℚ := if 0 ≤ e then ((m * 10 ^ e.toNat : ℕ) : ℚ)
    else mkRat (m : ℤ) (10 ^ (-e).toNat)
  if neg then -mag else mag

/-- Convert a parsed decimal literal (sign, mantissa digit value, decimal
exponent) to the JavaScript number it denotes, with overflow to infinity. -/
def decToJNum (neg : Bool) (m : ℕ) (e : ℤ) : JNum :=
  if decMagOverflows m e then (if neg then JNum.negInf else JNum.posInf)
  else JNum.finite (decRat neg m e)

/-- JSON insignificant whitespace (space, tab, line feed, carriage return). -/
def isJsonWs (c : Char) : Bool :=
  c = ' ' || c = Char.ofNat 9 || c = Char.ofNat 10 || c = Char.ofNat 13

/-- Drop leading JSON whitespace. -/
def skipWs : List Char → List Char
  | [] => []
  | c :: cs => if isJsonWs c then skipWs cs else c :: cs

/-- ASCII decimal digit test. -/
def isDigit (c : Char) : Bool := 48 ≤ c.toNat && c.toNat ≤ 57

/-- Split a maximal prefix of decimal digits off a character list. -/
def takeDigits : List Char → List Char × List Char
  | [] => ([], [])
  | c :: cs =>
    if isDigit c then
      let p := takeDigits cs
      (c :: p.1, p.2)
    else ([], c :: cs)

/-- Value of a digit string, accumulator style. -/
def digitsToNat (acc : ℕ) : List Char → ℕ
  | [] => acc
  | c :: cs => digitsToNat (acc * 10 + (c.toNat - 48)) cs

/-- Strict JSON integer part: a single 0, or a nonzero digit followed by
digits (a leading zero followed by another digit is a syntax error). -/
def parseIntPart : List Char → Option (List Char × List Char)
  | [] => none
  | c :: cs =>
    if c = '0' then
      match cs with
      | d :: r => if isDigit d then none else some ([c], d :: r)
      | [] => some ([c], [])
    else if isDigit c then
      let p := takeDigits cs
      some (c :: p.1, p.2)
    else none

/-- Optional JSON fraction part: a dot must be followed by at least one
digit; absence yields an empty digit list. -/
def parseFrac : List Char → Option (List Char × List Char)
  | [] => some ([], [])
  | c :: cs =>
    if c = '.' then
      let p := takeDigits cs
      if p.1 = [] then none else some p
    else some ([], c :: cs)

/-- Optional JSON exponent part: e or E, optional sign, at least one digit;
absence yields exponent 0. -/
def parseExp : List Char → Option (ℤ × List Char)
  | [] => some (0, [])
  | c :: cs =>
    if c = 'e' || c = 'E' then
      let signed : Bool × List Char :=
        match cs with
        | s :: r => if s = '+' then (false, r) else if s = '-' then (true, r) else (false, s :: r)
        | [] => (false, [])
      let p := takeDigits signed.2
      if p.1 = [] then none
      else
        let v : ℤ := digitsToNat 0 p.1
        some (if signed.1 then -v else v, p.2)
    else some (0, c :: cs)

/-- Parse a JSON numeric literal at the head of the input, returning the
JavaScript number it evaluates to (with overflow to infinity). -/
def parseNum (cs : List Char) : Option (JNum × List Char) :=
  let signed : Bool × List Char :=
    match cs with
    | c :: r => if c = '-' then (true, r) else (false, c :: r)
    | [] => (false, [])
  match parseIntPart signed.2 with
  | none => none
  | some (ids, cs2) =>
    match parseFrac cs2 with
    | none => none
    | some (fds, cs3) =>
      match parseExp cs3 with
      | none => none
      | some (ex, cs4) =>
        some (decToJNum signed.1 (digitsToNat 0 (ids ++ fds)) (ex - fds.length), cs4)

/-- Map a JSON string escape character to the character it denotes. -/
def escChar (c : Char) : Option Char :=
  if c = qMark then some qMark
  else if c = bslash then some bslash
  else if c = '/' then some '/'
  else if c = 'b' then some (Char.ofNat 8)
  else if c = 'f' then some (Char.ofNat 12)
  else if c = 'n' then some (Char.ofNat 10)
  else if c = 'r' then some (Char.ofNat 13)
  else if c = 't' then some (Char.ofNat 9)
  else none

/-- Hexadecimal digit value. -/
def hexVal (c : Char) : Option ℕ :=
  if 48 ≤ c.toNat && c.toNat ≤ 57 then some (c.toNat - 48)
  else if 97 ≤ c.toNat && c.toNat ≤ 102 then some (c.toNat - 87)
  else if 65 ≤ c.toNat && c.toNat ≤ 70 then some (c.toNat - 55)
  else none

/-- Parse the body of a JSON string literal (the opening quote already
consumed), returning its characters and the input past the closing quote.
Unescaped control characters are a syntax error; a \x7bu escape takes the
code unit as one character (surrogate pairing is not modelled; no input in
this development uses it). -/
def parseStr : List Char → Option (List Char × List Char)
  | [] => none
  | c :: cs =>
    if c = qMark then some ([], cs)
    else if c = bslash then
      match cs with
      | [] => none
      | e :: cs2 =>
        if e = 'u' then
          match cs2 with
          | a :: b :: c2 :: d :: cs3 =>
            match hexVal a, hexVal b, hexVal c2, hexVal d with
            | some va, some vb, some vc, some vd =>
              match parseStr cs3 with
              | some (s, r) => some (Char.ofNat (((va * 16 + vb) * 16 + vc) * 16 + vd) :: s, r)
              | none => none
            | _, _, _, _ => none
          | _ => none
        else
          match escChar e with
          | some ch =>
            match parseStr cs2 with
            | some (s, r) => some (ch :: s, r)
            | none => none
          | none => none
    else if c.toNat < 32 then none
    else
      match parseStr cs with
      | some (s, r) => some (c :: s, r)
      | none => none

/-- Parser mode: a single value, array elements (just after the opening
bracket, or after an element), object members likewise. -/
inductive PMode where
  | val
  | elems0
  | elemsMore
  | mems0
  | memsMore

/-- Parser intermediate result, matching the mode. -/
inductive PRes where
  | v (j : Json)
  | es (l : List Json)
  | ms (l : List (String × Json))

/-- The recursive JSON grammar, fuel-indexed so that the recursion is
structural.  Each constructor of the grammar consumes at least one character,
so fuel 2 * length + 4 (supplied by `jsonParse`) always suffices. -/
def parseCore : ℕ → PMode → List Char → Option (PRes × List Char)
  | 0, _, _ => none
  | Nat.succ f, PMode.val, cs =>
    match skipWs cs with
    | 'n' :: 'u' :: 'l' :: 'l' :: r => some (PRes.v Json.null, r)
    | 't' :: 'r' :: 'u' :: 'e' :: r => some (PRes.v (Json.bool true), r)
    | 'f' :: 'a' :: 'l' :: 's' :: 'e' :: r => some (PRes.v (Json.bool false), r)
    | '[' :: r =>
      (match parseCore f PMode.elems0 r with
       | some (PRes.es l, r2) => some (PRes.v (Json.arr l), r2)
       | _ => none)
    | c :: r =>
      if c = qMark then
        match parseStr r with
        | some (s, r2) => some (PRes.v (Json.str (String.mk s)), r2)
        | none => none
      else if c = lcub then
        match parseCore f PMode.mems0 r with
        | some (PRes.ms l, r2) => some (PRes.v (Json.obj l), r2)
        | _ => none
      else
        match parseNum (c :: r) with
        | some (n, r2) => some (PRes.v (Json.num n), r2)
        | none => none
    | [] => none
  | Nat.succ f, PMode.elems0, cs =>
    match skipWs cs with
    | ']' :: r => some (PRes.es [], r)
    | cs2 =>
      match parseCore f PMode.val cs2 with
      | some (PRes.v j, r) =>
        (match parseCore f PMode.elemsMore r with
         | some (PRes.es l, r2) => some (PRes.es (j :: l), r2)
         | _ => none)
      | _ => none
  | Nat.succ f, PMode.elemsMore, cs =>
    match skipWs cs with
    | ']' :: r => some (PRes.es [], r)
    | ',' :: r =>
      (match parseCore f PMode.val r with
       | some (PRes.v j, r2) =>
         (match parseCore f PMode.elemsMore r2 with
          | some (PRes.es l, r3) => some (PRes.es (j :: l), r3)
          | _ => none)
       | _ => none)
    | _ => none
  | Nat.succ f, PMode.mems0, cs =>
    match skipWs cs with
    | [] => none
    | c :: r =>
      if c = rcub then some (PRes.ms [], r)
      else if c = qMark then
        match parseStr r with
        | some (k, r2) =>
          (match skipWs r2 with
           | ':' :: r3 =>
             (match parseCore f PMode.val r3 with
              | some (PRes.v j, r4) =>
                (match parseCore f PMode.memsMore r4 with
                 | some (PRes.ms l, r5) => some (PRes.ms ((String.mk k, j) :: l), r5)
                 | _ => none)
              | _ => none)
           | _ => none)
        | none => none
      else none
  | Nat.succ f, PMode.memsMore, cs =>
    match skipWs cs with
    | [] => none
    | c :: r =>
      if c = rcub then some (PRes.ms [], r)
      else if c = ',' then
        match skipWs r with
        | [] => none
        | c2 :: r2 =>
          if c2 = qMark then
            match parseStr r2 with
            | some (k, r3) =>
              (match skipWs r3 with
               | ':' :: r4 =>
                 (match parseCore f PMode.val r4 with
                  | some (PRes.v j, r5) =>
                    (match parseCore f PMode.memsMore r5 with
                     | some (PRes.ms l, r6) => some (PRes.ms ((String.mk k, j) :: l), r6)
                     | _ => none)
                  | _ => none)
               | _ => none)
            | none => none
          else none
      else none

/-- The model of `JSON.parse`: parse one JSON value and require that only
whitespace follows; `none` models a thrown SyntaxError. -/
def jsonParse (s : String) : Option Json :=
  match parseCore (2 * s.data.length + 4) PMode.val s.data with
  | some (PRes.v j, rest) =>
    (match skipWs rest with
     | [] => some j
     | _ => none)
  | _ => none

/-! ## JavaScript value helpers used by the validation code -/

/-- The JavaScript test `typeof v === 'number'` on a JSON value: true exactly
for numbers (infinities included — they are of number type). -/
def jsTypeofIsNumber : Json → Bool
  | Json.num _ => true
  | _ => false

/-- The JavaScript test `Array.isArray(v)` on a JSON value. -/
def jsIsArray : Json → Bool
  | Json.arr _ => true
  | _ => false

/-- Property lookup on the members list of a parsed JSON object.  When a key
occurs more than once, `JSON.parse` keeps the last occurrence, which this
fold reproduces. -/
def lookupLast (ms : List (String × Json)) (k : String) : Option Json :=
  ms.foldl (fun acc kv => if kv.1 = k then some kv.2 else acc) none

/-- JavaScript property access `v[k]` on a non-null JSON value: a lookup on
objects, `undefined` (here `none`) on everything else.  Access on `null`
throws and is handled separately by the callers that can reach it. -/
def jsGetMember : Json → String → Option Json
  | Json.obj ms, k => lookupLast ms k
  | _, _ => none

/-- Whether a JSON object value has a given key (the JavaScript `k in v`
test, reached only under a `typeof v === 'object'` guard). -/
def jsHasKey : Json → String → Bool
  | Json.obj ms, k => ms.any (fun kv => kv.1 = k)
  | _, _ => false

/-- JavaScript whitespace trimmed by `String.prototype.trim` and by `Number`
(ASCII subset; the pages only ever receive keyboard input). -/
def isJsWs (c : Char) : Bool :=
  c = ' ' || c = Char.ofNat 9 || c = Char.ofNat 10 || c = Char.ofNat 13 ||
  c = Char.ofNat 11 || c = Char.ofNat 12

/-- `s.trim()`: drop JavaScript whitespace from both ends. -/
def jsTrim (cs : List Char) : List Char :=
  ((cs.dropWhile (fun c => isJsWs c)).reverse.dropWhile (fun c => isJsWs c)).reverse

/-- Decimal part of the `Number(string)` grammar: digits, optional dot with
optional further digits (at least one digit overall), optional exponent.
Returns the value, `none` for NaN. -/
def numDecimalBody (cs : List Char) : Option JNum :=
  let ip := takeDigits cs
  let fracd : Option (List Char × List Char) :=
    match ip.2 with
    | c :: r => if c = '.' then some (takeDigits r) else some ([], c :: r)
    | [] => some ([], [])
  match fracd with
  | none => none
  | some (fds, cs3) =>
    if ip.1 = [] && fds = [] then none
    else
      match parseExp cs3 with
      | none => none
      | some (ex, cs4) =>
        match cs4 with
        | [] => some (decToJNum false (digitsToNat 0 (ip.1 ++ fds)) (ex - fds.length))
        | _ => none

/-- Digits of a given base (used for the 0x / 0o / 0b forms of `Number`). -/
def takeBaseDigits (base : ℕ) : List Char → List ℕ × List Char
  | [] => ([], [])
  | c :: cs =>
    match hexVal c with
    | some v =>
      if v < base then
        let p := takeBaseDigits base cs
        (v :: p.1, p.2)
      else ([], c :: cs)
    | none => ([], c :: cs)

/-- Value of base digits. -/
def baseDigitsToNat (base : ℕ) (acc : ℕ) : List ℕ → ℕ
  | [] => acc
  | d :: ds => baseDigitsToNat base (acc * base + d) ds

/-- The JavaScript conversion `Number(string)` restricted to what it is used
for here (`isNaN(Number(target))`): trim, empty string is 0, an optional
sign followed by `Infinity` or a decimal literal, or an unsigned 0x/0o/0b
integer literal.  `none` is NaN. -/
def jsStringToNumber (s : String) : Option JNum :=
  match jsTrim s.data with
  | [] => some (JNum.finite 0)
  | c :: cs =>
    if c = '0' then
      match cs with
      | b :: r =>
        if b = 'x' || b = 'X' then
          let p := takeBaseDigits 16 r
          if p.1 = [] || p.2 ≠ [] then none
          else some (JNum.finite (baseDigitsToNat 16 0 p.1))
        else if b = 'o' || b = 'O' then
          let p := takeBaseDigits 8 r
          if p.1 = [] || p.2 ≠ [] then none
          else some (JNum.finite (baseDigitsToNat 8 0 p.1))
        else if b = 'b' || b = 'B' then
          let p := takeBaseDigits 2 r
          if p.1 = [] || p.2 ≠ [] then none
          else some (JNum.finite (baseDigitsToNat 2 0 p.1))
        else numDecimalBody (c :: cs)
      | [] => some (JNum.finite 0)
    else
      let signedBody : Bool × List Char :=
        if c = '-' then (true, cs) else if c = '+' then (false, cs) else (false, c :: cs)
      match signedBody.2 with
      | 'I' :: 'n' :: 'f' :: 'i' :: 'n' :: 'i' :: 't' :: 'y' :: [] =>
        some (if signedBody.1 then JNum.negInf else JNum.posInf)
      | body =>
        match numDecimalBody body with
        | some (JNum.finite q) => some (JNum.finite (if signedBody.1 then -q else q))
        | some JNum.posInf => some (if signedBody.1 then JNum.negInf else JNum.posInf)
        | some JNum.negInf => some JNum.negInf
        | none => none

/-! ## Shared output shape of the three generation flows

All three flow output schemas (`AlgorithmSimulationOutputSchema`,
`GraphSimulationOutputSchema`, `TreeSimulationOutputSchema`) declare exactly
the two string fields below. -/

/-- Output of a generation flow: `simulationDescription` free text and
`visualizationData`, a string expected to contain JSON. -/
structure SimulationOutput where
  simulationDescription : String
  visualizationData : String
deriving DecidableEq

/-- The union result type of the server actions: `success: true` with data,
or `success: false` with an error message. -/
inductive ActionResult (α : Type) where
  | success (data : α)
  | failure (error : String)
deriving DecidableEq

/-! ## Server actions (src/app/simulations/graph/actions.ts, tree/actions.ts,
and the array actions file) -/

/-- Typed values accepted by the graph action `formSchema`
(algorithmName and graphData strings, optional start and end nodes).
`formSchema.safeParse` always succeeds on values of this shape, so the
handler model starts at the `JSON.parse(graphData)` guard. -/
structure GraphFormInput where
  algorithmName : String
  graphData : String
  startNode : Option String
  endNode : Option String

/-- Input handed to `generateGraphSimulation`. -/
structure GraphSimulationInput where
  algorithmName : String
  graphData : String
  startNode : Option String
  endNode : Option String
deriving DecidableEq

/-- Control flow of `handleGraphSimulation` up to the external call: either
an early input-error return, or the invocation of `generateGraphSimulation`
on the built input. -/
inductive RequestStage (α : Type) where
  | inputError (error : String)
  | invoke (input : α)
deriving DecidableEq

/-- Lines 22 to 35 of graph/actions.ts: validate that `graphData` is valid
JSON before building the input; on a parse exception return the input error
without ever reaching `generateGraphSimulation`. -/
def handleGraphSimulationRequest (v : GraphFormInput) : RequestStage GraphSimulationInput :=
  match jsonParse v.graphData with
  | none => RequestStage.inputError ("Invalid graph data format. Please provide valid JSON.")
  | some _ => RequestStage.invoke ⟨v.algorithmName, v.graphData, v.startNode, v.endNode⟩

/-- Typed values accepted by the tree action `formSchema`. -/
structure TreeFormInput where
  algorithmName : String
  treeData : String
  target : Option String

/-- Input handed to `generateTreeSimulation`; the target is a JavaScript
number (`none` in the inner option is NaN). -/
structure TreeSimulationInput where
  algorithmName : String
  treeData : String
  target : Option (Option JNum)

/-- Lines 22 to 33 of tree/actions.ts: validate that `treeData` is valid
JSON before building the input (the target string, when truthy, is converted
with `Number`); on a parse exception return the input error without reaching
`generateTreeSimulation`. -/
def handleTreeSimulationRequest (v : TreeFormInput) : RequestStage TreeSimulationInput :=
  match jsonParse v.treeData with
  | none => RequestStage.inputError ("Invalid tree data format. Please provide valid JSON.")
  | some _ =>
    RequestStage.invoke
      ⟨v.algorithmName, v.treeData,
       match v.target with
       | some t => if t = "" then none else some (jsStringToNumber t)
       | none => none⟩

/-- Lines 37 to 48 of graph/actions.ts: after `generateGraphSimulation`
resolves, run `JSON.parse(output.visualizationData)` as the only check; a
SyntaxError is caught and turned into the failure result, any valid JSON is
returned as success. -/
def handleGraphSimulationResponse (output : SimulationOutput) : ActionResult SimulationOutput :=
  match jsonParse output.visualizationData with
  | some _ => ActionResult.success output
  | none => ActionResult.failure ("AI returned invalid visualization data. Please try again.")

/-- Lines 35 to 46 of tree/actions.ts: the same response check for the tree
action. -/
def handleTreeSimulationResponse (output : SimulationOutput) : ActionResult SimulationOutput :=
  match jsonParse output.visualizationData with
  | some _ => ActionResult.success output
  | none => ActionResult.failure ("AI returned invalid visualization data. Please try again.")

/-- The response check of `handleAlgorithmSimulation` (array actions file),
identical to the graph one. -/
def handleAlgorithmSimulationResponse (output : SimulationOutput) : ActionResult SimulationOutput :=
  match jsonParse output.visualizationData with
  | some _ => ActionResult.success output
  | none => ActionResult.failure ("AI returned invalid visualization data. Please try again.")

/-! ## Graph page state (src/app/simulations/graph/page.tsx) -/

/-- The page state relevant to playback: the loaded simulation result and the
error banner.  `simulationData = none` is the Empty playback state — no
result loaded, nothing rendered. -/
structure GraphPageState where
  simulationData : Option SimulationOutput
  error : Option String
deriving DecidableEq

/-- `onSubmit` (graph/page.tsx lines 270 to 287): clear both fields, then on
a success result store the data, on a failure store only the error. -/
def graphOnSubmitResult (result : ActionResult SimulationOutput) : GraphPageState :=
  match result with
  | ActionResult.success d => { simulationData := some d, error := none }
  | ActionResult.failure e => { simulationData := none, error := some e }

/-- The `simulationSteps` memo (graph/page.tsx lines 289 to 297): `null`
when no data is loaded, otherwise `JSON.parse` of the visualization data
(`null` again when that parse throws). -/
def simulationStepsMemo (st : GraphPageState) : Option Json :=
  match st.simulationData with
  | none => none
  | some d => jsonParse d.visualizationData

/-! ## Array Simulator form (the array page: ALGORITHMS table, `formSchema`,
`onSubmit`) -/

/-- The ALGORITHMS table of the Array Simulator page: value and type. -/
def arrayALGORITHMS : List (String × String) :=
  [("Bubble Sort", "sort"), ("Selection Sort", "sort"), ("Insertion Sort", "sort"),
   ("Merge Sort", "sort"), ("Quick Sort", "sort"),
   ("Linear Search", "search"), ("Binary Search", "search")]

/-- `ALGORITHMS.find(a => a.value === name)?.type`. -/
def algoTypeIn (table : List (String × String)) (name : String) : Option String :=
  match table.find? (fun a => a.1 = name) with
  | some a => some a.2
  | none => none

/-- The `arrayInput` refinement of the array page `formSchema`: non-blank,
and `JSON.parse` of the input wrapped in square brackets yields an array
whose every element satisfies `typeof item === 'number'`. -/
def arrayInputValid (val : String) : Bool :=
  if jsTrim val.data = [] then false
  else
    match jsonParse ("[" ++ val ++ "]") with
    | some (Json.arr items) => items.all (fun item => jsTypeofIsNumber item)
    | some _ => false
    | none => false

/-- The object-level target refinement shared by the array and tree page
schemas: when the selected algorithm has type search, the target must be
present, non-blank after trimming, and `Number(target)` must not be NaN;
for every other algorithm (or an unknown name) the refinement passes. -/
def targetRefine (table : List (String × String)) (algorithm : String)
    (target : Option String) : Bool :=
  match algoTypeIn table algorithm with
  | some t =>
    if t = "search" then
      match target with
      | some s => decide (jsTrim s.data ≠ []) && (jsStringToNumber s).isSome
      | none => false
    else true
  | none => true

/-- Full validity of the array page form values under `formSchema`:
algorithm non-empty, the arrayInput refinement, and the target refinement. -/
def arrayFormValid (algorithm arrayInput : String) (target : Option String) : Bool :=
  decide (1 ≤ algorithm.length) && arrayInputValid arrayInput &&
    targetRefine arrayALGORITHMS algorithm target

/-- Parameters the array page `onSubmit` passes to the server action: the
bracketed array string, and `Number(target)` when the selected algorithm is
a search and the target string is truthy. -/
structure ArrayRequestParams where
  algorithmName : String
  array : String
  target : Option (Option JNum)
deriving DecidableEq

/-- The array page submission: `handleSubmit` invokes `onSubmit` only when
`formSchema` (through `zodResolver`) accepts the values, so an invalid form
builds no request at all; on a valid form `onSubmit` builds the parameters
of the `handleAlgorithmSimulation` call. -/
def submitArraySimulation (algorithm arrayInput : String) (target : Option String) :
    Option ArrayRequestParams :=
  if arrayFormValid algorithm arrayInput target then
    some
      { algorithmName := algorithm
        array := "[" ++ arrayInput ++ "]"
        target :=
          if algoTypeIn arrayALGORITHMS algorithm = some ("search") then
            match target with
            | some t => if t = "" then none else some (jsStringToNumber t)
            | none => none
          else none }
  else none

/-! ## Tree Simulator form (tree/page.tsx: ALGORITHMS table, `formSchema`,
`onSubmit`) -/

/-- The ALGORITHMS table of the Tree Simulator page. -/
def treeALGORITHMS : List (String × String) :=
  [("In-order Traversal", "traversal"), ("Pre-order Traversal", "traversal"),
   ("Post-order Traversal", "traversal"), ("Binary Search", "search")]

/-- The `treeData` refinement of the tree page `formSchema`: the string
parses as JSON, the value is a non-null object (arrays included, as in
JavaScript `typeof`), and it has a `value` key. -/
def treeDataValid (val : String) : Bool :=
  match jsonParse val with
  | some v => jsHasKey v ("value")
  | none => false

/-- Full validity of the tree page form values under `formSchema`. -/
def treeFormValid (algorithm treeData : String) (target : Option String) : Bool :=
  decide (1 ≤ algorithm.length) && treeDataValid treeData &&
    targetRefine treeALGORITHMS algorithm target

/-- The tree page submission: `onSubmit` runs only past `zodResolver`, and
passes the raw form values on to `handleTreeSimulation`. -/
def submitTreeSimulation (algorithm treeData : String) (target : Option String) :
    Option TreeFormInput :=
  if treeFormValid algorithm treeData target then
    some { algorithmName := algorithm, treeData := treeData, target := target }
  else none

/-! ## Array step viewer (`SimulationDisplay` of the simpler array page,
src/unnamed/part_004 lines 220 to 279) -/

/-- `parsedData.every(item => Array.isArray(item.array))`, including the
JavaScript semantics of the property access: on a `null` element the access
throws a TypeError (result `none`, caught by the surrounding try), on any
other element it yields the member or `undefined`. -/
def everyItemArrayField : List Json → Option Bool
  | [] => some true
  | Json.null :: _ => none
  | item :: rest =>
    match jsGetMember item ("array") with
    | some (Json.arr _) => everyItemArrayField rest
    | _ => some false

/-- What the array `SimulationDisplay` renders. -/
inductive ArrayDisplayView where
  | parseError
  | noData
  | chart (steps : List Json) (step : ℕ)

/-- The parse-and-guard logic of `SimulationDisplay` (part_004 lines
223 to 241): parse the visualization data inside a try (a throw during the
parse or the every-check renders the invalid-data error); keep the parsed
steps only when the value is an array whose every element has an `array`
array field; an empty step list renders the no-data message; otherwise the
chart of the full step list at the current index is rendered. -/
def simulationDisplayView (vd : String) (step : ℕ) : ArrayDisplayView :=
  match jsonParse vd with
  | none => ArrayDisplayView.parseError
  | some (Json.arr items) =>
    (match everyItemArrayField items with
     | none => ArrayDisplayView.parseError
     | some true =>
       match items with
       | [] => ArrayDisplayView.noData
       | i0 :: irest => ArrayDisplayView.chart (i0 :: irest) step
     | some false => ArrayDisplayView.noData)
  | some _ => ArrayDisplayView.noData

/-! ## Playback navigation (GraphVisualizer and TreeVisualizer buttons, and
the part_004 slider) -/

/-- Previous button: `setStep(s => Math.max(0, s - 1))`. -/
def prevStep (s : ℤ) : ℤ := max 0 (s - 1)

/-- Next button: `setStep(s => Math.min(steps.length - 1, s + 1))`. -/
def nextStep (n : ℕ) (s : ℤ) : ℤ := min ((n : ℤ) - 1) (s + 1)

/-- The part_004 scrubber: a Slider with `min=0` and `max=length-1`, whose
emitted position is clamped into that range before `setStep` receives it. -/
def sliderSeek (n : ℕ) (i : ℤ) : ℤ := min (max i 0) ((n : ℤ) - 1)

/-- JavaScript array indexing `steps[i]` with a (possibly out of range)
integer index: `none` models `undefined`. -/
def jsIndex {α : Type} (xs : List α) (i : ℤ) : Option α :=
  if i < 0 then none else xs.get? i.toNat

/-- A playback navigation request: one of the three `setStep` call sites. -/
inductive PlaybackOp where
  | prev
  | next
  | seek (i : ℤ)

/-- Apply one navigation operation to the current index, for an n-step
sequence. -/
def applyOp (n : ℕ) (s : ℤ) : PlaybackOp → ℤ
  | PlaybackOp.prev => prevStep s
  | PlaybackOp.next => nextStep n s
  | PlaybackOp.seek i => sliderSeek n i

/-- Run a whole sequence of navigation operations from a starting index. -/
def runOps (n : ℕ) (ops : List PlaybackOp) (s : ℤ) : ℤ :=
  ops.foldl (applyOp n) s

/-- The visualizer playback state: the steps prop together with the
`useState` index. -/
structure PlaybackState (α : Type) where
  steps : List α
  idx : ℤ

/-- A scrub: `setStep` with the slider-clamped position. -/
def doSeek {α : Type} (st : PlaybackState α) (i : ℤ) : PlaybackState α :=
  { st with idx := sliderSeek st.steps.length i }

/-- The derived current step `steps[step]` read at render time. -/
def currentStep {α : Type} (st : PlaybackState α) : Option α :=
  jsIndex st.steps st.idx

/-! ## Auxiliary notions used by the theorem statements -/

/-- The node-id strings listed under the `nodes` key of one graph step. -/
def stepNodeIdStrings (j : Json) : Option (List String) :=
  match jsGetMember j ("nodes") with
  | some (Json.arr ns) =>
    some (ns.filterMap (fun n =>
      match jsGetMember n ("id") with
      | some (Json.str s) => some s
      | _ => none))
  | _ => none

/-- Whether a step value carries an `array` field that is itself an array
(the per-element check of the part_004 viewer). -/
def hasArrayListField (j : Json) : Bool :=
  match jsGetMember j ("array") with
  | some (Json.arr _) => true
  | _ => false

/-- A target form field that is absent, blank after trimming, or for which
`Number` yields NaN. -/
def targetMissingOrInvalid (target : Option String) : Prop :=
  target = none ∨ ∃ s, target = some s ∧ (jsTrim s.data = [] ∨ jsStringToNumber s = none)

/-- When the every-check of the part_004 viewer succeeds, each element of the
payload really has an `array` array field. -/
theorem everyItemArrayField_true {items : List Json}
    (h : everyItemArrayField items = some true) :
    ∀ j ∈ items, hasArrayListField j = true := by
  induction items with
  | nil => intro j hj; cases hj
  | cons item rest ih =>
    intro j hj
    cases item with
    | null => simp [everyItemArrayField] at h
    | _ =>
      rw [List.mem_cons] at hj
      rcases hj with hj | hj
      · subst hj
        simp only [everyItemArrayField] at h
        unfold hasArrayListField
        split at h
        · simp_all
        · simp_all
      · apply ih _ j hj
        simp only [everyItemArrayField] at h
        split at h
        · exact h
        · simp_all

/-- One navigation operation keeps the index in range for an n-step
sequence. -/
theorem applyOp_in_range (n : ℕ) (hn : 1 ≤ n) (s : ℤ)
    (hs : 0 ≤ s ∧ s ≤ (n : ℤ) - 1) (op : PlaybackOp) :
    0 ≤ applyOp n s op ∧ applyOp n s op ≤ (n : ℤ) - 1 := by
  cases op <;> simp [applyOp, prevStep, nextStep, sliderSeek] <;> omega

/-- A whole sequence of navigation operations keeps the index in range. -/
theorem runOps_in_range (n : ℕ) (hn : 1 ≤ n) (ops : List PlaybackOp) (s : ℤ)
    (hs : 0 ≤ s ∧ s ≤ (n : ℤ) - 1) :
    0 ≤ runOps n ops s ∧ runOps n ops s ≤ (n : ℤ) - 1 := by
  induction ops generalizing s with
  | nil => exact hs
  | cons op rest ih => exact ih (applyOp n s op) (applyOp_in_range n hn s hs op)

/-! ## Claims -/

/-- C3: a response whose visualizationData fails `JSON.parse` makes the
handler return the typed failure result (success false with the validation
message) rather than throw, and the page then stores no simulation result:
the playback state stays Empty and the steps memo stays null, so no partial
steps are displayed. -/
theorem malformed_response_fails_closed (output : SimulationOutput)
    (h : jsonParse output.visualizationData = none) :
    handleGraphSimulationResponse output =
      ActionResult.failure ("AI returned invalid visualization data. Please try again.") ∧
    graphOnSubmitResult (handleGraphSimulationResponse output) =
      { simulationData := none,
        error := some ("AI returned invalid visualization data. Please try again.") } ∧
    simulationStepsMemo (graphOnSubmitResult (handleGraphSimulationResponse output)) = none := by
  have hr : handleGraphSimulationResponse output =
      ActionResult.failure ("AI returned invalid visualization data. Please try again.") := by
    unfold handleGraphSimulationResponse
    rw [h]
  refine ⟨hr, ?_, ?_⟩ <;> rw [hr] <;> rfl

/-- Truncated JSON used as the concrete malformed response. -/
def truncatedVd : String := "[\x7b\"nodes\":"

/-- Witness for C3 at a concrete truncated-JSON response. -/
theorem malformed_response_fails_closed_witness :
    handleGraphSimulationResponse ⟨("d"), truncatedVd⟩ =
      ActionResult.failure ("AI returned invalid visualization data. Please try again.") ∧
    graphOnSubmitResult (handleGraphSimulationResponse ⟨("d"), truncatedVd⟩) =
      { simulationData := none,
        error := some ("AI returned invalid visualization data. Please try again.") } ∧
    simulationStepsMemo (graphOnSubmitResult (handleGraphSimulationResponse ⟨("d"), truncatedVd⟩)) =
      none :=
  malformed_response_fails_closed ⟨("d"), truncatedVd⟩ rfl

/-- C4: a Graph or Tree submission whose raw graphData / treeData string is
not valid JSON is answered with the input-error result before the external
generate flow is ever invoked. -/
theorem invalid_input_json_never_reaches_generate
    (gv : GraphFormInput) (tv : TreeFormInput)
    (hg : jsonParse gv.graphData = none) (ht : jsonParse tv.treeData = none) :
    handleGraphSimulationRequest gv =
      RequestStage.inputError ("Invalid graph data format. Please provide valid JSON.") ∧
    handleTreeSimulationRequest tv =
      RequestStage.inputError ("Invalid tree data format. Please provide valid JSON.") := by
  constructor
  · unfold handleGraphSimulationRequest; rw [hg]
  · unfold handleTreeSimulationRequest; rw [ht]

/-- Witness for C4 at concrete non-JSON graph and tree data. -/
theorem invalid_input_json_never_reaches_generate_witness :
    handleGraphSimulationRequest ⟨("BFS"), ("\x7b"), some ("A"), none⟩ =
      RequestStage.inputError ("Invalid graph data format. Please provide valid JSON.") ∧
    handleTreeSimulationRequest ⟨("Binary Search"), ("not json"), some ("9")⟩ =
      RequestStage.inputError ("Invalid tree data format. Please provide valid JSON.") :=
  invalid_input_json_never_reaches_generate
    ⟨("BFS"), ("\x7b"), some ("A"), none⟩ ⟨("Binary Search"), ("not json"), some ("9")⟩ rfl rfl

/-- C7: on an N-step sequence, stepping back at index 0 stays at 0, stepping
forward at N-1 stays at N-1, and the scrubber clamps every requested
position into [0, N-1]; in particular seeking -1 gives 0 and seeking N gives
N-1, with no error in any case. -/
theorem playback_navigation_clamps (n : ℕ) (hn : 1 ≤ n) (i : ℤ) :
    prevStep 0 = 0 ∧
    nextStep n ((n : ℤ) - 1) = (n : ℤ) - 1 ∧
    0 ≤ sliderSeek n i ∧ sliderSeek n i ≤ (n : ℤ) - 1 ∧
    sliderSeek n (-1) = 0 ∧
    sliderSeek n (n : ℤ) = (n : ℤ) - 1 := by
  simp only [prevStep, nextStep, sliderSeek]
  omega

/-- Witness for C7 on a 3-step sequence with an out-of-range request 7. -/
theorem playback_navigation_clamps_witness :
    prevStep 0 = 0 ∧
    nextStep 3 ((3 : ℤ) - 1) = (3 : ℤ) - 1 ∧
    0 ≤ sliderSeek 3 7 ∧ sliderSeek 3 7 ≤ (3 : ℤ) - 1 ∧
    sliderSeek 3 (-1) = 0 ∧
    sliderSeek 3 (3 : ℤ) = (3 : ℤ) - 1 :=
  playback_navigation_clamps 3 (by decide) 7

/-- C8: seeking the same valid index twice yields the same current step as
seeking it once — reading the current step does not mutate the playback
state, so seek is idempotent. -/
theorem seek_idempotent {α : Type} (st : PlaybackState α) (i : ℤ)
    (hi : 0 ≤ i ∧ i < (st.steps.length : ℤ)) :
    currentStep (doSeek (doSeek st i) i) = currentStep (doSeek st i) := rfl

/-- Witness for C8 on a concrete two-step sequence at index 1. -/
theorem seek_idempotent_witness :
    currentStep (doSeek (doSeek (PlaybackState.mk [Json.num (JNum.finite 1),
      Json.num (JNum.finite 2)] 0) 1) 1) =
    currentStep (doSeek (PlaybackState.mk [Json.num (JNum.finite 1),
      Json.num (JNum.finite 2)] 0) 1) :=
  seek_idempotent (PlaybackState.mk [Json.num (JNum.finite 1), Json.num (JNum.finite 2)] 0) 1
    (by constructor <;> decide)

/-- C9: starting from index 0 after a load, every sequence of previous /
next / scrub operations leaves the index inside [0, N-1], so the current
step lookup is defined for every reachable state of a non-empty sequence. -/
theorem playback_index_invariant (steps : List Json) (ops : List PlaybackOp)
    (h : 1 ≤ steps.length) :
    0 ≤ runOps steps.length ops 0 ∧
    runOps steps.length ops 0 ≤ (steps.length : ℤ) - 1 ∧
    (jsIndex steps (runOps steps.length ops 0)).isSome = true := by
  have hr := runOps_in_range steps.length h ops 0 (by constructor <;> omega)
  refine ⟨hr.1, hr.2, ?_⟩
  unfold jsIndex
  rw [if_neg (by omega)]
  have hlt : (runOps steps.length ops 0).toNat < steps.length := by omega
  rw [List.get?_eq_get hlt]
  rfl

/-- Witness for C9 on a concrete two-step sequence and operation list. -/
theorem playback_index_invariant_witness :
    0 ≤ runOps 2 [PlaybackOp.next, PlaybackOp.seek 5, PlaybackOp.prev] 0 ∧
    runOps 2 [PlaybackOp.next, PlaybackOp.seek 5, PlaybackOp.prev] 0 ≤ (2 : ℤ) - 1 ∧
    (jsIndex [Json.null, Json.bool true]
      (runOps 2 [PlaybackOp.next, PlaybackOp.seek 5, PlaybackOp.prev] 0)).isSome = true :=
  playback_index_invariant [Json.null, Json.bool true]
    [PlaybackOp.next, PlaybackOp.seek 5, PlaybackOp.prev] (by decide)

/-- A search-type algorithm with a missing, blank, or NaN target fails the
object-level refinement. -/
theorem targetRefine_search_missing (table : List (String × String)) (alg : String)
    (target : Option String) (h : algoTypeIn table alg = some ("search"))
    (hbad : targetMissingOrInvalid target) :
    targetRefine table alg target = false := by
  unfold targetRefine
  rw [h]
  rcases hbad with h0 | ⟨s, hs, hb⟩
  · subst h0; rfl
  · subst hs
    rcases hb with hb | hb
    · simp [hb]
    · simp [hb]

/-- The target refinement passes for every non-search algorithm, whatever
the target field holds. -/
theorem targetRefine_not_search (table : List (String × String)) (alg : String)
    (target : Option String) (h : algoTypeIn table alg ≠ some ("search")) :
    targetRefine table alg target = true := by
  unfold targetRefine
  cases hA : algoTypeIn table alg with
  | none => rfl
  | some t =>
    have ht : ¬ t = "search" := fun he => h (he ▸ hA)
    simp [ht]

/-- C5: in the Array and Tree simulators, submitting a search-type algorithm
with the target absent, blank, or non-numeric fails validation and builds no
request; the same submission for a non-search algorithm (with the other
fields valid) succeeds without a target. -/
theorem search_target_required :
    (∀ alg input target, algoTypeIn arrayALGORITHMS alg = some ("search") →
      targetMissingOrInvalid target → submitArraySimulation alg input target = none) ∧
    (∀ alg treeData target, algoTypeIn treeALGORITHMS alg = some ("search") →
      targetMissingOrInvalid target → submitTreeSimulation alg treeData target = none) ∧
    (∀ alg input, algoTypeIn arrayALGORITHMS alg ≠ some ("search") →
      1 ≤ alg.length → arrayInputValid input = true →
      (submitArraySimulation alg input none).isSome = true) ∧
    (∀ alg treeData, algoTypeIn treeALGORITHMS alg ≠ some ("search") →
      1 ≤ alg.length → treeDataValid treeData = true →
      (submitTreeSimulation alg treeData none).isSome = true) := by
  refine ⟨?_, ?_, ?_, ?_⟩
  · intro alg input target h hbad
    simp [submitArraySimulation, arrayFormValid,
      targetRefine_search_missing arrayALGORITHMS alg target h hbad]
  · intro alg treeData target h hbad
    simp [submitTreeSimulation, treeFormValid,
      targetRefine_search_missing treeALGORITHMS alg target h hbad]
  · intro alg input h h1 h2
    simp [submitArraySimulation, arrayFormValid, h1, h2,
      targetRefine_not_search arrayALGORITHMS alg none h]
  · intro alg treeData h h1 h2
    simp [submitTreeSimulation, treeFormValid, h1, h2,
      targetRefine_not_search treeALGORITHMS alg none h]

/-- A minimal valid tree-data JSON string. -/
def tinyTree : String := "\x7b\"value\":1\x7d"

/-- Witness for C5: Binary Search with no target builds no request in either
simulator; Bubble Sort and In-order Traversal submit fine without one. -/
theorem search_target_required_witness :
    submitArraySimulation ("Binary Search") ("5, 2") none = none ∧
    submitTreeSimulation ("Binary Search") tinyTree none = none ∧
    (submitArraySimulation ("Bubble Sort") ("5, 2") none).isSome = true ∧
    (submitTreeSimulation ("In-order Traversal") tinyTree none).isSome = true :=
  ⟨search_target_required.1 ("Binary Search") ("5, 2") none (by decide) (Or.inl rfl),
   search_target_required.2.1 ("Binary Search") tinyTree none (by decide) (Or.inl rfl),
   search_target_required.2.2.1 ("Bubble Sort") ("5, 2") (by decide) (by decide) rfl,
   search_target_required.2.2.2 ("In-order Traversal") tinyTree (by decide) (by decide) rfl⟩

/-- C6 counterexample: the input 1e999 passes the array-input validation —
every element has number type — yet its parsed element is Infinity, a
non-finite number, so inputs with non-finite elements are not rejected. -/
theorem overflow_literal_accepted_cex :
    arrayInputValid ("1e999") = true ∧
    jsonParse ("[1e999]") = some (Json.arr [Json.num JNum.posInf]) :=
  ⟨rfl, rfl⟩

/-- C6 amended: every element of an accepted array input is of JavaScript
number type (never NaN, which no JSON literal can produce), but finiteness
is not guaranteed: an overflowing literal such as 1e999 parses to Infinity
and is accepted. -/
theorem accepted_array_elements_are_numbers (val : String) (items : List Json)
    (hv : arrayInputValid val = true)
    (hp : jsonParse ("[" ++ val ++ "]") = some (Json.arr items)) :
    ∀ j ∈ items, jsTypeofIsNumber j = true := by
  unfold arrayInputValid at hv
  split at hv
  · exact absurd hv (by simp)
  · rw [hp] at hv
    intro j hj
    exact List.all_eq_true.mp hv j hj

/-- Witness for C6 amended at the accepted input 5, 2, read off at both of
its parsed elements. -/
theorem accepted_array_elements_are_numbers_witness :
    jsTypeofIsNumber (Json.num (JNum.finite 5)) = true ∧
    jsTypeofIsNumber (Json.num (JNum.finite 2)) = true :=
  ⟨accepted_array_elements_are_numbers ("5, 2")
      [Json.num (JNum.finite 5), Json.num (JNum.finite 2)] rfl rfl
      (Json.num (JNum.finite 5)) (by simp),
   accepted_array_elements_are_numbers ("5, 2")
      [Json.num (JNum.finite 5), Json.num (JNum.finite 2)] rfl rfl
      (Json.num (JNum.finite 2)) (by simp)⟩

/-- First step of the C1 counterexample: one node A. -/
def stepA : Json :=
  Json.obj [(("nodes"), Json.arr [Json.obj [(("id"), Json.str ("A"))]])]

/-- Second step of the C1 counterexample: node B appears from nowhere. -/
def stepAB : Json :=
  Json.obj [(("nodes"),
    Json.arr [Json.obj [(("id"), Json.str ("A"))], Json.obj [(("id"), Json.str ("B"))]])]

/-- A two-step response whose second step introduces a node id absent from
step 0. -/
def mutatingNodesVd : String :=
  "[\x7b\"nodes\":[\x7b\"id\":\"A\"\x7d]\x7d,\x7b\"nodes\":[\x7b\"id\":\"A\"\x7d,\x7b\"id\":\"B\"\x7d]\x7d]"

/-- C1 counterexample: a response that introduces node id B in step 1 (not
present in step 0) is accepted by the response validation path as a
successful result, and the page memo loads exactly those two steps — no
invariant-violation rejection happens anywhere. -/
theorem new_node_id_accepted_cex :
    handleGraphSimulationResponse ⟨("d"), mutatingNodesVd⟩ =
      ActionResult.success ⟨("d"), mutatingNodesVd⟩ ∧
    jsonParse mutatingNodesVd = some (Json.arr [stepA, stepAB]) ∧
    stepNodeIdStrings stepA = some [("A")] ∧
    stepNodeIdStrings stepAB = some [("A"), ("B")] ∧
    stepNodeIdStrings stepA ≠ stepNodeIdStrings stepAB ∧
    simulationStepsMemo (graphOnSubmitResult
      (handleGraphSimulationResponse ⟨("d"), mutatingNodesVd⟩)) =
      some (Json.arr [stepA, stepAB]) :=
  ⟨rfl, rfl, rfl, rfl, by decide, rfl⟩

/-- C1 amended: the response validation path checks only that the
visualizationData is syntactically valid JSON; every syntactically valid
response — including one that introduces or drops node ids mid-sequence —
is returned as a successful result and loaded by the page unchanged. -/
theorem response_validation_only_syntactic (output : SimulationOutput) (v : Json)
    (h : jsonParse output.visualizationData = some v) :
    handleGraphSimulationResponse output = ActionResult.success output ∧
    simulationStepsMemo (graphOnSubmitResult (handleGraphSimulationResponse output)) =
      some v := by
  have hr : handleGraphSimulationResponse output = ActionResult.success output := by
    unfold handleGraphSimulationResponse
    rw [h]
  refine ⟨hr, ?_⟩
  rw [hr]
  simpa [simulationStepsMemo, graphOnSubmitResult] using h

/-- Witness for C1 amended at a concrete syntactically valid response. -/
theorem response_validation_only_syntactic_witness :
    handleGraphSimulationResponse ⟨("d"), ("[1]")⟩ =
      ActionResult.success ⟨("d"), ("[1]")⟩ ∧
    simulationStepsMemo (graphOnSubmitResult
      (handleGraphSimulationResponse ⟨("d"), ("[1]")⟩)) =
      some (Json.arr [Json.num (JNum.finite 1)]) :=
  response_validation_only_syntactic ⟨("d"), ("[1]")⟩ (Json.arr [Json.num (JNum.finite 1)]) rfl

/-- C2 counterexample: a response whose visualizationData is valid JSON but
not an array, and one that is an empty array, are both returned as
successful results — no EmptySequence validation error exists. -/
theorem nonarray_and_empty_accepted_cex :
    handleGraphSimulationResponse ⟨("d"), ("\x7b\x7d")⟩ =
      ActionResult.success ⟨("d"), ("\x7b\x7d")⟩ ∧
    handleAlgorithmSimulationResponse ⟨("d"), ("[]")⟩ =
      ActionResult.success ⟨("d"), ("[]")⟩ :=
  ⟨rfl, rfl⟩

/-- C2 amended: the handlers accept any syntactically valid JSON payload,
non-array and empty-array payloads included, as successful results; the
array step viewer then maps such a payload to an empty step list and renders
the no-data message instead of failing with a validation error. -/
theorem nonarray_or_empty_renders_no_data (output : SimulationOutput) (v : Json)
    (h : jsonParse output.visualizationData = some v)
    (hv : jsIsArray v = false ∨ v = Json.arr []) :
    handleAlgorithmSimulationResponse output = ActionResult.success output ∧
    handleGraphSimulationResponse output = ActionResult.success output ∧
    ∀ step, simulationDisplayView output.visualizationData step = ArrayDisplayView.noData := by
  refine ⟨?_, ?_, ?_⟩
  · unfold handleAlgorithmSimulationResponse; rw [h]
  · unfold handleGraphSimulationResponse; rw [h]
  · intro step
    unfold simulationDisplayView
    rw [h]
    rcases hv with hv | hv
    · cases v <;> first | rfl | simp [jsIsArray] at hv
    · subst hv; rfl

/-- Witness for C2 amended at the non-array payload of the counterexample
family (an empty JSON object). -/
theorem nonarray_or_empty_renders_no_data_witness :
    handleAlgorithmSimulationResponse ⟨("d"), ("\x7b\"a\":1\x7d")⟩ =
      ActionResult.success ⟨("d"), ("\x7b\"a\":1\x7d")⟩ ∧
    handleGraphSimulationResponse ⟨("d"), ("\x7b\"a\":1\x7d")⟩ =
      ActionResult.success ⟨("d"), ("\x7b\"a\":1\x7d")⟩ ∧
    ∀ step, simulationDisplayView ("\x7b\"a\":1\x7d") step = ArrayDisplayView.noData :=
  nonarray_or_empty_renders_no_data ⟨("d"), ("\x7b\"a\":1\x7d")⟩
    (Json.obj [(("a"), Json.num (JNum.finite 1))]) rfl
    (Or.inl rfl)

/-- C10 counterexample: a payload whose element is null (an element without
an `array` list field) is not rendered as the no-data message: the property
access throws a TypeError that the viewer catches, rendering the
invalid-data parse error instead. -/
theorem null_step_renders_parse_error_cex :
    simulationDisplayView ("[null]") 0 = ArrayDisplayView.parseError ∧
    simulationDisplayView ("[null]") 0 ≠ ArrayDisplayView.noData :=
  ⟨rfl, fun h => nomatch h⟩

/-- The part of the viewer logic below the parse, on the parsed items
(factored out of `simulationDisplayView` for proof reuse). -/
def viewOfItems (items : List Json) (step : ℕ) : ArrayDisplayView :=
  match everyItemArrayField items with
  | none => ArrayDisplayView.parseError
  | some true =>
    (match items with
     | [] => ArrayDisplayView.noData
     | i0 :: irest => ArrayDisplayView.chart (i0 :: irest) step)
  | some false => ArrayDisplayView.noData

/-- Characterization of the viewer on a payload that parses as an array. -/
theorem simulationDisplayView_arr (vd : String) (items : List Json) (step : ℕ)
    (hp : jsonParse vd = some (Json.arr items)) :
    simulationDisplayView vd step = viewOfItems items step := by
  unfold simulationDisplayView viewOfItems
  rw [hp]

/-- C10 amended: a parsed array payload containing an element that fails the
`array`-field check is never charted — it renders the no-data message, or
the caught-TypeError parse error when the offending element is null — and a
rendered chart always shows the full parsed step list, every element of
which has an `array` array field (so the viewer never renders a partial
subset and never indexes into a step missing the field). -/
theorem missing_array_field_never_charted :
    (∀ vd step items, jsonParse vd = some (Json.arr items) →
      (∃ j ∈ items, hasArrayListField j = false) →
      simulationDisplayView vd step = ArrayDisplayView.noData ∨
      simulationDisplayView vd step = ArrayDisplayView.parseError) ∧
    (∀ vd step steps s, simulationDisplayView vd step = ArrayDisplayView.chart steps s →
      ∃ items, jsonParse vd = some (Json.arr items) ∧ steps = items ∧
        ∀ j ∈ steps, hasArrayListField j = true) := by
  constructor
  · intro vd step items hp hbad
    rcases hbad with ⟨j, hj, hjf⟩
    rw [simulationDisplayView_arr vd items step hp]
    unfold viewOfItems
    cases he : everyItemArrayField items with
    | none => right; rfl
    | some b =>
      cases b with
      | false => left; rfl
      | true => exact absurd (everyItemArrayField_true he j hj) (by simp [hjf])
  · intro vd step steps s hview
    unfold simulationDisplayView at hview
    split at hview
    · cases hview
    · next items heq =>
      split at hview
      · cases hview
      · next hevery =>
        split at hview
        · cases hview
        · next i0 irest =>
          cases hview
          exact ⟨i0 :: irest, heq, rfl, everyItemArrayField_true hevery⟩
      · cases hview
    · cases hview

/-- Witness for C10 amended: a number element is not charted, and a
well-formed single-step payload charts the full parsed list. -/
theorem missing_array_field_never_charted_witness :
    (simulationDisplayView ("[5]") 0 = ArrayDisplayView.noData ∨
     simulationDisplayView ("[5]") 0 = ArrayDisplayView.parseError) ∧
    (∃ items, jsonParse ("[\x7b\"array\":[1]\x7d]") = some (Json.arr items) ∧
      [Json.obj [(("array"), Json.arr [Json.num (JNum.finite 1)])]] = items ∧
      ∀ j ∈ [Json.obj [(("array"), Json.arr [Json.num (JNum.finite 1)])]],
        hasArrayListField j = true) :=
  ⟨missing_array_field_never_charted.1 ("[5]") 0 [Json.num (JNum.finite 5)] rfl
    ⟨Json.num (JNum.finite 5), by simp, rfl⟩,
   missing_array_field_never_charted.2 ("[\x7b\"array\":[1]\x7d]") 0
    [Json.obj [(("array"), Json.arr [Json.num (JNum.finite 1)])]] 0 rfl⟩

end TutorAI
